import Mathlib

/-!
Shallow embedding of the bot-message freshness/stabilization engine of this
repository, and proofs about it.

Embedded source files:
* `src/services/directLineService.js` — activity fetch (`getBotActivities`) and
  the latest-bot-message selector (`getLatestBotMessage`);
* `src/hooks/useDirectLineBotMessages.js` — the polling loop with its
  dedup state, modelled as a state machine over poll events;
* `src/hooks/useTypingDetection.js` — the DOM stabilization detector
  (`checkAndProcessStableMessage`), modelled as a state machine over
  observation events.

Modelling conventions:
* JavaScript strings are Lean `String`s; `s.length` is modelled by `utf16Len`
  (UTF-16 code units, 2 for astral-plane characters such as emoji).
* A possibly-absent (`undefined`/`null`) string field is `Option String`;
  JS truthiness of such a field is `optTruthy` (present and non-empty).
* An activity timestamp is `Option Int`: `some t` is a present ISO timestamp
  whose `new Date(ts).getTime()` value is `t`; `none` is an absent or falsy
  timestamp field.  `localeCompare` on ids is modelled as code-point order.
* Code that can throw is embedded in `Except String`; the thrown `Error`
  message is the payload.
* `Array.prototype.sort` (stable in ES2019+) is modelled by the stable
  insertion sort `stableSort` on the `le` relation `cmp a b ≤ 0`.
-/

/-! ## JavaScript string primitives -/

/-- Whitespace class of JavaScript `\s`, `String.prototype.trim` and friends:
tab, LF, VT, FF, CR, space, NBSP, Unicode space separators, line/paragraph
separators, and the BOM. -/
def jsIsWhite (c : Char) : Bool :=
  c.toNat = 9 ∨ c.toNat = 10 ∨ c.toNat = 11 ∨ c.toNat = 12 ∨ c.toNat = 13 ∨
  c.toNat = 32 ∨ c.toNat = 0xa0 ∨ c.toNat = 0x1680 ∨
  (0x2000 ≤ c.toNat ∧ c.toNat ≤ 0x200a) ∨
  c.toNat = 0x2028 ∨ c.toNat = 0x2029 ∨ c.toNat = 0x202f ∨
  c.toNat = 0x205f ∨ c.toNat = 0x3000 ∨ c.toNat = 0xfeff

/-- Drop leading and trailing JS whitespace from a character list. -/
def jsTrimList (l : List Char) : List Char :=
  ((l.dropWhile jsIsWhite).reverse.dropWhile jsIsWhite).reverse

/-- JavaScript `String.prototype.trim`. -/
def jsTrim (s : String) : String :=
  String.mk (jsTrimList s.toList)

/-- Length of a character list in UTF-16 code units (JS `String.length`). -/
def utf16LenL : List Char → Nat
  | [] => 0
  | c :: cs => (if c.toNat ≥ 0x10000 then 2 else 1) + utf16LenL cs

/-- JavaScript `String.prototype.length` (UTF-16 code units). -/
def utf16Len (s : String) : Nat := utf16LenL s.toList

/-- JavaScript `String.prototype.includes`: `sub` occurs contiguously in `s`. -/
def jsIncludes (s sub : String) : Bool :=
  decide (sub.toList <:+: s.toList)

/-- JS truthiness of a possibly-absent string field: present and non-empty. -/
def optTruthy : Option String → Bool
  | none => false
  | some s => s ≠ ""

/-- Lexicographic code-point comparison of character lists, as a sign. -/
def charListCmp : List Char → List Char → Int
  | [], [] => 0
  | [], _ :: _ => -1
  | _ :: _, [] => 1
  | c :: cs, d :: ds =>
    if c.toNat < d.toNat then -1
    else if d.toNat < c.toNat then 1
    else charListCmp cs ds

/-- Sign of JavaScript `x.localeCompare(y)`, modelled as code-point order:
negative when `x` sorts before `y`, positive when after, zero when equal. -/
def strCmpInt (x y : String) : Int :=
  charListCmp x.toList y.toList

/-- Case-insensitive substring test (used only to state claims about
human-readable error messages). -/
def icontains (s sub : String) : Bool :=
  jsIncludes (String.mk (s.toList.map Char.toLower)) sub

/-! ## Stable sort (model of `Array.prototype.sort`)

ES2019+ requires `Array.prototype.sort` to be stable; with a consistent
comparator the sorted stable permutation is unique, so any stable sort is a
faithful model.  We use insertion sort with `le a b = (cmp a b ≤ 0)`. -/

/-- Insert `x` into `l` in front of the first element `y` with `le x y`. -/
def stableInsert (le : α → α → Bool) (x : α) : List α → List α
  | [] => [x]
  | y :: ys => if le x y then x :: y :: ys else y :: stableInsert le x ys

/-- Stable insertion sort. -/
def stableSort (le : α → α → Bool) : List α → List α
  | [] => []
  | x :: xs => stableInsert le x (stableSort le xs)

theorem mem_stableInsert (le : α → α → Bool) (x a : α) (l : List α) :
    a ∈ stableInsert le x l ↔ a = x ∨ a ∈ l := by
  induction l with
  | nil => simp [stableInsert]
  | cons y ys ih =>
      simp only [stableInsert]
      by_cases h : le x y = true
      · simp [h]
      · simp [h, ih]
        tauto

theorem mem_stableSort (le : α → α → Bool) (a : α) (l : List α) :
    a ∈ stableSort le l ↔ a ∈ l := by
  induction l with
  | nil => simp [stableSort]
  | cons x xs ih => simp [stableSort, mem_stableInsert, ih]

/-! ## Data model (`src/services/directLineService.js`) -/

/-- One rich-card attachment payload (opaque to the selection logic). -/
structure Attachment where
  url : Option String
  title : Option String
  subtitle : Option String
deriving DecidableEq

/-- One activity of the Direct Line conversation log.  The `from` actor
descriptor (`role`, `id`, `name`, any of which may be absent) is flattened
into the three `from*` fields; an absent `from` object behaves exactly like
`{}` (the code reads it as `activity.from || {}`), i.e. all three `none`. -/
structure Activity where
  id : Option String
  type : String
  text : Option String
  timestamp : Option Int
  fromRole : Option String
  fromId : Option String
  fromName : Option String
  attachments : List Attachment
  attachmentLayout : Option String
deriving DecidableEq

/-- Response payload of the activities endpoint: `data.activities` may be
absent (`none`); note that an empty array is truthy in JS, so `some []`
passes the `!activitiesData.activities` guard. -/
structure ActivitiesData where
  activities : Option (List Activity)
deriving DecidableEq

/-- Return value of `getLatestBotMessage` (the derived BotMessage record). -/
structure BotMessage where
  text : String
  id : Option String
  timestamp : Option Int
  attachments : List Attachment
  attachmentLayout : Option String
  activity : Activity
deriving DecidableEq

/-- The hard-coded known bot identifier compared against `from.id`. -/
def knownBotId : String := "comm-cba1-conci-retailai7v5b1-bot"

/-- Bot-classifier of `getLatestBotMessage` (and `extractBotMessages`):
`from.role === 'bot' || from.id === knownBotId ||
 (from.id && from.id.includes('bot')) || from.name === 'Concierge'`. -/
def isBotFrom (a : Activity) : Bool :=
  (a.fromRole = some "bot") ∨
  (a.fromId = some knownBotId) ∨
  (optTruthy a.fromId ∧ jsIncludes (a.fromId.getD "") "bot") ∨
  (a.fromName = some "Concierge")

/-- Filter predicate of `getLatestBotMessage`: a `message`-type activity with
truthy, non-blank text (`activity.text && activity.text.trim().length > 0`)
or a non-empty attachments array, authored by the bot. -/
def keepsActivity (a : Activity) : Bool :=
  let isMessage : Bool := a.type = "message"
  let hasText : Bool :=
    match a.text with
    | none => false
    | some t => (t ≠ "") ∧ utf16Len (jsTrim t) > 0
  let hasAttachments : Bool := a.attachments.length > 0
  if ¬isMessage ∨ (¬hasText ∧ ¬hasAttachments) then false
  else isBotFrom a

/-- Comparator passed to `.sort` in `getLatestBotMessage`: descending by
parsed timestamp when both are truthy, otherwise descending
`b.id.localeCompare(a.id)` when both ids are truthy, otherwise `0`. -/
def activityCmp (a b : Activity) : Int :=
  if a.timestamp.isSome ∧ b.timestamp.isSome then
    b.timestamp.getD 0 - a.timestamp.getD 0
  else if optTruthy a.id ∧ optTruthy b.id then
    strCmpInt (b.id.getD "") (a.id.getD "")
  else 0

/-- Order relation induced by `activityCmp` for the stable sort. -/
def activityLe (a b : Activity) : Bool := activityCmp a b ≤ 0

/-- Construction of the returned record (`directLineService.js:227-234`):
`text` is `latest.text ? latest.text.trim() : ''`, `attachments` is
`latest.attachments || []`. -/
def mkBotMessage (latest : Activity) : BotMessage :=
  { text := if optTruthy latest.text then jsTrim (latest.text.getD "") else ""
    id := latest.id
    timestamp := latest.timestamp
    attachments := latest.attachments
    attachmentLayout := latest.attachmentLayout
    activity := latest }

/-- Thrown when the per-message debug log (`directLineService.js:197`)
evaluates `activity.text.substring(0, 100)` on an activity without text. -/
def substringTypeError : String :=
  "TypeError: Cannot read properties of undefined (reading substring)"

/-- `getLatestBotMessage` (`directLineService.js:138-235`).  Filters the log,
sorts it with `activityCmp`, then — when the retained list is non-empty —
logs every retained activity, reading `activity.text.substring(0, 100)`
without a guard, which throws when a retained activity has no `text`
(possible, since attachments-only messages pass the filter).  Finally
returns the record built from the head, or `null` when nothing is retained. -/
def getLatestBotMessage (d : ActivitiesData) : Except String (Option BotMessage) :=
  match d.activities with
  | none => .ok none
  | some acts =>
    let botActivities := stableSort activityLe (acts.filter keepsActivity)
    if botActivities.all (fun a => a.text.isSome) then
      match botActivities with
      | [] => .ok none
      | latest :: _ => .ok (some (mkBotMessage latest))
    else .error substringTypeError

/-! ## Activity fetch (`getBotActivities`, `directLineService.js:14-99`) -/

/-- Parsed JSON body of a response.  `errorMessage` models
`data.error?.message` and `message` models `data.message`; a body that fails
to parse becomes `{}` (all fields `none`) via `.json().catch(() => ({}))`. -/
structure ResponseBody where
  errorMessage : Option String
  message : Option String
  activities : Option (List Activity)
deriving DecidableEq

/-- An HTTP response as seen by `getBotActivities`. -/
structure HttpResponse where
  status : Nat
  body : ResponseBody
deriving DecidableEq

/-- `Response.ok`: status in the inclusive range 200-299. -/
def respOk (status : Nat) : Bool := 200 ≤ status ∧ status < 300

/-- Error message computed for a non-ok response
(`directLineService.js:37-45`): a generic message derived from the body when
present, overridden for statuses 401, 404 and 403. -/
def directLineErrorMessage (status : Nat) (b : ResponseBody) : String :=
  let generic : String :=
    if optTruthy b.errorMessage then b.errorMessage.getD ""
    else if optTruthy b.message then b.message.getD ""
    else "API error: " ++ toString status
  if status = 401 then "Unauthorized: Invalid Bearer Token. Please check your token."
  else if status = 404 then "Conversation not found: Invalid Conversation ID."
  else if status = 403 then "Forbidden: Token may not have access to this conversation."
  else generic

/-- `getBotActivities(conversationId, bearerToken)` applied to the response
the network returned: rejects blank credentials, throws the mapped error
message on a non-ok status, and otherwise returns the parsed data. -/
def getBotActivities (conversationId bearerToken : String) (resp : HttpResponse) :
    Except String ActivitiesData :=
  if conversationId = "" ∨ bearerToken = "" then
    .error "Conversation ID and Bearer Token are required"
  else if respOk resp.status then .ok ⟨resp.body.activities⟩
  else .error (directLineErrorMessage resp.status resp.body)

/-! ## Claim-side selector definitions

These re-state the spec's selection algorithm in its own words, to be
compared with the embedding above (refinement-style).  `claimSelectOrig`
follows the claim exactly as written (id fallback also on timestamp ties);
`claimSelect` is the amended version (ties between two present timestamps
leave the stable sort order unchanged, as the comparator returns `0`). -/

/-- Spec's bot-classifier: role is "bot", or id equals the known bot
identifier, or id contains the substring "bot", or name is "Concierge". -/
def claimIsBot (a : Activity) : Bool :=
  (a.fromRole = some "bot") ∨
  (a.fromId = some knownBotId) ∨
  jsIncludes (a.fromId.getD "") "bot" ∨
  (a.fromName = some "Concierge")

/-- Spec's retain predicate: type is `message`, text non-blank or attachments
non-empty, and the bot-classifier holds. -/
def claimKeep (a : Activity) : Bool :=
  (a.type = "message") ∧
  (utf16Len (jsTrim (a.text.getD "")) > 0 ∨ a.attachments ≠ []) ∧
  claimIsBot a

/-- Descending id comparison used by the spec's fallback. -/
def claimIdFallback (a b : Activity) : Int :=
  strCmpInt (b.id.getD "") (a.id.getD "")

/-- Comparator exactly as the claim words it: descending by timestamp, with
descending id comparison both when either side lacks a timestamp and when
the timestamps tie. -/
def claimCmpOrig (a b : Activity) : Int :=
  match a.timestamp, b.timestamp with
  | some ta, some tb => if ta = tb then claimIdFallback a b else tb - ta
  | _, _ => claimIdFallback a b

/-- Order relation of `claimCmpOrig`. -/
def claimLeOrig (a b : Activity) : Bool := claimCmpOrig a b ≤ 0

/-- Head of the retained set sorted by the claim's comparator as written. -/
def claimSelectOrig (d : ActivitiesData) : Option Activity :=
  (stableSort claimLeOrig ((d.activities.getD []).filter claimKeep)).head?

/-- Amended comparator: descending by timestamp when both are present
(a tie yields `0`, so the stable sort preserves input order), descending id
comparison when either side lacks a timestamp and both ids are present and
non-empty, otherwise `0`. -/
def claimCmp (a b : Activity) : Int :=
  match a.timestamp, b.timestamp with
  | some ta, some tb => tb - ta
  | _, _ =>
    if optTruthy a.id ∧ optTruthy b.id then claimIdFallback a b else 0

/-- Order relation of the amended comparator. -/
def claimLe (a b : Activity) : Bool := claimCmp a b ≤ 0

/-- Head of the retained set under the amended ordering. -/
def claimSelect (d : ActivitiesData) : Option Activity :=
  (stableSort claimLe ((d.activities.getD []).filter claimKeep)).head?

/-- Hypothesis under which the per-message debug log cannot throw: every
retained activity has a present `text` field. -/
def allRetainedHaveText (d : ActivitiesData) : Prop :=
  ∀ a ∈ (d.activities.getD []).filter keepsActivity, a.text.isSome = true

instance (d : ActivitiesData) : Decidable (allRetainedHaveText d) := by
  unfold allRetainedHaveText; infer_instance

/-! ## Polling machine (`src/hooks/useDirectLineBotMessages.js`)

The hook's mutable state is gathered into `PollState`; the event-driven
behaviour of `startPolling` / `stopPolling` / the interval firing / an
awaited fetch resolving is a step function over `PollEvent`s.  The body of
`pollBotMessages` up to its `await` merely starts a fetch; everything after
the `await` runs when the fetch resolves, so a `resolve` event carries the
value of `getLatestBotMessage` applied to the fetched data (or the thrown
error).  `stopPolling` clears the interval but does not touch an in-flight
fetch, which is why `inFlight` survives a `stop` event. -/

/-- Configuration captured by the hook closure: whether `conversationId` and
`bearerToken` are both truthy, and whether an `onBotMessage` callback was
supplied. -/
structure PollConfig where
  credsOk : Bool
  hasCallback : Bool
deriving DecidableEq

/-- Mutable state of the hook: `isActiveRef`, React's `isPolling` and
`error` states, `pollingIntervalRef` (as a Bool), the two dedup refs, and
the number of fetches currently awaited. -/
structure PollState where
  isActive : Bool
  isPolling : Bool
  intervalSet : Bool
  lastMessage : String
  lastActivityId : String
  error : Option String
  inFlight : Nat
deriving DecidableEq

/-- State before `startPolling` has ever run. -/
def initPollState : PollState :=
  { isActive := false, isPolling := false, intervalSet := false,
    lastMessage := "", lastActivityId := "", error := none, inFlight := 0 }

instance exceptDecEq {ε α : Type} [DecidableEq ε] [DecidableEq α] :
    DecidableEq (Except ε α) := fun x y =>
  match x, y with
  | .ok a, .ok b =>
    if h : a = b then isTrue (by rw [h])
    else isFalse (fun hh => h (Except.ok.inj hh))
  | .ok _, .error _ => isFalse (fun hh => Except.noConfusion hh)
  | .error _, .ok _ => isFalse (fun hh => Except.noConfusion hh)
  | .error e, .error f =>
    if h : e = f then isTrue (by rw [h])
    else isFalse (fun hh => h (Except.error.inj hh))

/-- Events driving the polling machine. -/
inductive PollEvent where
  | start
  | tickFire
  | resolve (r : Except String (Option BotMessage))
  | stop
deriving DecidableEq

/-- `latestMessageData.id || latestMessage`: the activity id when truthy,
otherwise the (already trimmed) message text. -/
def activityIdOf (m : BotMessage) : String :=
  if optTruthy m.id then m.id.getD "" else m.text

/-- The hook's newness test (`useDirectLineBotMessages.js:54-56`). -/
def isNewFor (s : PollState) (m : BotMessage) : Prop :=
  activityIdOf m ≠ s.lastActivityId ∨ m.text ≠ s.lastMessage

instance (s : PollState) (m : BotMessage) : Decidable (isNewFor s m) := by
  unfold isNewFor; infer_instance

/-- One step of the polling machine; the second component lists the
arguments of the `onBotMessage` invocations the step performs. -/
def pollStep (cfg : PollConfig) (s : PollState) : PollEvent → PollState × List String
  | .start =>
    if ¬cfg.credsOk then (s, [])
    else if s.isActive then (s, [])
    else
      ({ s with
          isActive := true
          isPolling := true
          error := none
          inFlight := s.inFlight + 1
          intervalSet := true }, [])
  | .tickFire =>
    if s.intervalSet then ({ s with inFlight := s.inFlight + 1 }, []) else (s, [])
  | .resolve r =>
    if s.inFlight = 0 then (s, [])
    else
      match r with
      | .error e => ({ s with inFlight := s.inFlight - 1, error := some e }, [])
      | .ok none => ({ s with inFlight := s.inFlight - 1 }, [])
      | .ok (some m) =>
        if isNewFor s m then
          ({ s with
              inFlight := s.inFlight - 1
              lastMessage := m.text
              lastActivityId := activityIdOf m },
           if cfg.hasCallback then [m.text] else [])
        else ({ s with inFlight := s.inFlight - 1 }, [])
  | .stop =>
    ({ s with intervalSet := false, isActive := false, isPolling := false }, [])

/-- Run the machine over a list of events, accumulating deliveries. -/
def pollRun (cfg : PollConfig) : PollState → List PollEvent → PollState × List String
  | s, [] => (s, [])
  | s, e :: es =>
    let p := pollStep cfg s e
    let q := pollRun cfg p.1 es
    (q.1, p.2 ++ q.2)

/-! ## DOM stabilization detector (`src/hooks/useTypingDetection.js`)

`checkAndProcessStableMessage` (lines 313-385) closes over five mutable
variables; one invocation of it — whether triggered by the mutation
observer, the 500ms fallback interval, or the stabilization timer firing
(which passes `immediate = true`) — is one step of the machine.  An
observation supplies what the invocation reads from the DOM: whether a
typing indicator is visible, and the text of the last extracted bot message
(`none` when `extractBotMessages()` returned an empty list). -/

/-- `STABILIZATION_DELAY` (milliseconds) — the timer re-armed on growth. -/
def stabilizationDelay : Nat := 800

/-- `MIN_STABILIZATION_COUNT` — checks a stable text must survive. -/
def minStabilizationCount : Nat := 1

/-- Mutable variables captured by `checkAndProcessStableMessage`:
`lastProcessedText`, `lastProcessedTime`, `messageStabilizationTimeout`
(modelled as the Bool `timerArmed`), `lastSeenText`, `stabilizationCount`. -/
structure StabState where
  lastProcessedText : String
  lastProcessedTime : Int
  timerArmed : Bool
  lastSeenText : String
  stabilizationCount : Nat
deriving DecidableEq

/-- State when the effect is installed. -/
def initStabState : StabState :=
  { lastProcessedText := "", lastProcessedTime := 0, timerArmed := false,
    lastSeenText := "", stabilizationCount := 0 }

/-- What one invocation observes: the `immediate` argument, whether
`isBotTyping()` holds, the text of the latest extracted bot message
(`none` when none was extracted), and `Date.now()`. -/
structure StabObs where
  immediate : Bool
  botTyping : Bool
  latestText : Option String
  now : Int
deriving DecidableEq

/-- Emoji ranges stripped at delivery (`useTypingDetection.js:361-364`):
U+1F300-U+1F9FF, U+2600-U+26FF, U+2700-U+27BF, U+1FA00-U+1FAFF. -/
def isStrippedEmoji (c : Char) : Bool :=
  (0x1F300 ≤ c.toNat ∧ c.toNat ≤ 0x1F9FF) ∨
  (0x2600 ≤ c.toNat ∧ c.toNat ≤ 0x26FF) ∨
  (0x2700 ≤ c.toNat ∧ c.toNat ≤ 0x27BF) ∨
  (0x1FA00 ≤ c.toNat ∧ c.toNat ≤ 0x1FAFF)

/-- Collapse every maximal run of JS whitespace to a single space
(`.replace(/\s+/g, ' ')`); `prevWs` records whether the previous character
belonged to a run already emitted as a space. -/
def collapseWsAux : Bool → List Char → List Char
  | _, [] => []
  | prevWs, c :: cs =>
    if jsIsWhite c then
      if prevWs then collapseWsAux true cs
      else ' ' :: collapseWsAux true cs
    else c :: collapseWsAux false cs

/-- Delivery-time cleaning (`useTypingDetection.js:360-366`): strip the four
emoji ranges, collapse whitespace runs to single spaces, trim. -/
def cleanText (s : String) : String :=
  String.mk (jsTrimList (collapseWsAux false (s.toList.filter (fun c => ¬isStrippedEmoji c))))

/-- One invocation of `checkAndProcessStableMessage`.  `hasCallback` is the
truthiness of the `onBotMessage` prop.  Returns the successor state and the
argument of the `onBotMessage` invocation the step performs, if any. -/
def stabStep (hasCallback : Bool) (s : StabState) (o : StabObs) :
    StabState × Option String :=
  if o.botTyping ∧ ¬o.immediate then (s, none)
  else
    match o.latestText with
    | none => (s, none)
    | some currentText =>
      if currentText ≠ s.lastSeenText ∧ utf16Len currentText > utf16Len s.lastSeenText then
        ({ s with
            lastSeenText := currentText
            stabilizationCount := 0
            timerArmed := true }, none)
      else if currentText = s.lastSeenText ∧ utf16Len currentText > 5 then
        let cnt := s.stabilizationCount + 1
        if o.immediate ∨ cnt ≥ minStabilizationCount then
          let isNew : Prop :=
            currentText ≠ s.lastProcessedText ∨ o.now - s.lastProcessedTime > 5000
          if isNew ∧ hasCallback ∧ currentText ≠ "" then
            let clean := cleanText currentText
            if clean ≠ "" ∧ utf16Len clean > 5 then
              ({ s with
                  lastProcessedText := currentText
                  lastProcessedTime := o.now
                  stabilizationCount := 0 }, some clean)
            else ({ s with stabilizationCount := 0 }, none)
          else ({ s with stabilizationCount := 0 }, none)
        else ({ s with stabilizationCount := cnt }, none)
      else (s, none)

/-- Run the detector over a list of observations, accumulating deliveries. -/
def stabRun (hasCallback : Bool) : StabState → List StabObs → StabState × List String
  | s, [] => (s, [])
  | s, o :: os =>
    let p := stabStep hasCallback s o
    let q := stabRun hasCallback p.1 os
    (q.1, p.2.toList ++ q.2)

/-! ## Equivalence of the code's filter/comparator with the spec's words -/

theorem isBotFrom_eq_claimIsBot (a : Activity) : isBotFrom a = claimIsBot a := by
  unfold isBotFrom claimIsBot
  cases hi : a.fromId with
  | none => simp [optTruthy, jsIncludes]
  | some s =>
    by_cases hs : s = ""
    · subst hs; simp [optTruthy, jsIncludes]
    · simp [optTruthy, hs]

theorem keepsActivity_eq_claimKeep (a : Activity) : keepsActivity a = claimKeep a := by
  unfold keepsActivity claimKeep
  rw [isBotFrom_eq_claimIsBot]
  have hatt : a.attachments.length > 0 ↔ a.attachments ≠ [] := List.length_pos
  have hz : ¬ (utf16Len (jsTrim "") > 0) := by decide
  cases ht : a.text with
  | none =>
    by_cases hm : a.type = "message" <;> by_cases hat : a.attachments = [] <;>
    by_cases hb : claimIsBot a = true <;>
      simp [hm, hat, hb, hatt, hz, Option.getD]
  | some t =>
    by_cases hs : t = ""
    · subst hs
      by_cases hm : a.type = "message" <;> by_cases hat : a.attachments = [] <;>
      by_cases hb : claimIsBot a = true <;>
        simp [hm, hat, hb, hatt, hz, Option.getD]
    · by_cases hm : a.type = "message" <;> by_cases hat : a.attachments = [] <;>
      by_cases hb : claimIsBot a = true <;> by_cases hl : utf16Len (jsTrim t) > 0 <;>
        simp [hm, hat, hb, hs, hl, hatt, Option.getD]

theorem activityCmp_eq_claimCmp (a b : Activity) : activityCmp a b = claimCmp a b := by
  unfold activityCmp claimCmp claimIdFallback
  cases ha : a.timestamp <;> cases hb : b.timestamp <;> simp

theorem activityLe_eq_claimLe : activityLe = claimLe := by
  funext a b
  unfold activityLe claimLe
  rw [activityCmp_eq_claimCmp]

/-! ## C1 — the selector against the claimed selection algorithm -/

/-- Two bot-authored text messages with the same timestamp: ids "a" then "b"
in log order. -/
def actTieA : Activity :=
  { id := some "a", type := "message", text := some "x", timestamp := some 100,
    fromRole := some "bot", fromId := none, fromName := none,
    attachments := [], attachmentLayout := none }

/-- Same as `actTieA` but with id "b" and text "y". -/
def actTieB : Activity :=
  { actTieA with id := some "b", text := some "y" }

/-- Log containing the two tied activities in ascending-id order. -/
def dTie : ActivitiesData := ⟨some [actTieA, actTieB]⟩

/-- C1 (counterexample): the claim as written fails on a timestamp tie.  The
comparator returns `timeB - timeA = 0` for two equal present timestamps —
it does NOT fall back to descending id comparison — so the stable sort keeps
the log order and the head is the id-"a" activity, while the claimed
ordering (id fallback on ties) would put the id-"b" activity first. -/
theorem C1_counterexample :
    getLatestBotMessage dTie ≠ .ok ((claimSelectOrig dTie).map mkBotMessage) := by
  decide

/-- C1 (amended, part of the proof): with text present on every retained
activity, the selector returns exactly the head of the retained set under
the amended ordering (id fallback only when a timestamp is missing;
timestamp ties keep log order). -/
theorem C1_amended_selector_equiv (d : ActivitiesData) (h : allRetainedHaveText d) :
    getLatestBotMessage d = .ok ((claimSelect d).map mkBotMessage) := by
  unfold getLatestBotMessage claimSelect
  cases hact : d.activities with
  | none => rfl
  | some acts =>
    have hfilter : acts.filter keepsActivity = acts.filter claimKeep :=
      List.filter_congr (fun x _ => keepsActivity_eq_claimKeep x)
    have hall : (stableSort activityLe (acts.filter keepsActivity)).all
        (fun a => a.text.isSome) = true := by
      rw [List.all_eq_true]
      intro a ha
      apply h
      rw [hact]
      simpa using (mem_stableSort activityLe a (acts.filter keepsActivity)).mp ha
    simp only [hall, if_true, Option.getD]
    rw [activityLe_eq_claimLe] at hall ⊢
    rw [hfilter] at hall ⊢
    cases hsort : stableSort claimLe (acts.filter claimKeep) with
    | nil => simp [hsort]
    | cons latest rest => simp [hsort]

/-- Log with two fully-texted, fully-timestamped bot activities (distinct
timestamps), used to instantiate the amended C1 theorem. -/
def dPlain : ActivitiesData :=
  ⟨some [actTieA, { actTieB with timestamp := some 200 }]⟩

/-- C1 (witness): the amended selector equivalence applied to `dPlain`. -/
theorem C1_amended_witness :
    allRetainedHaveText dPlain ∧
    getLatestBotMessage dPlain = .ok ((claimSelect dPlain).map mkBotMessage) :=
  ⟨by decide, C1_amended_selector_equiv dPlain (by decide)⟩

/-! ## C2, C4, C6, C8 — the polling machine -/

/-- Configuration with truthy credentials and a supplied callback. -/
def cfgT : PollConfig := ⟨true, true⟩

/-- A concrete selected BotMessage used in machine-level witnesses. -/
def msgW : BotMessage :=
  { text := "hello world", id := some "m1", timestamp := some 7,
    attachments := [], attachmentLayout := none, activity := actTieA }

/-- A poll state with one fetch awaited and empty dedup fields. -/
def sInFlight : PollState := { initPollState with inFlight := 1 }

/-- C2: resolving a fetch that selected message `m` delivers iff the
callback is present and `m` is new — its id (or its text, when the id is
not truthy) differs from `lastActivityId`, or its text differs from
`lastMessage`; a delivery writes both dedup fields (the step is atomic:
`useDirectLineBotMessages.js:64-65` update the refs before line 70 invokes
the callback); and a second consecutive resolve of the same message never
delivers again. -/
theorem C2_dedup_delivery (cfg : PollConfig) (s : PollState) (m : BotMessage)
    (h : s.inFlight ≠ 0) :
    ((pollStep cfg s (.resolve (.ok (some m)))).2 ≠ [] ↔
      (cfg.hasCallback = true ∧ isNewFor s m)) ∧
    (isNewFor s m →
      (pollStep cfg s (.resolve (.ok (some m)))).1.lastActivityId = activityIdOf m ∧
      (pollStep cfg s (.resolve (.ok (some m)))).1.lastMessage = m.text) ∧
    (pollStep cfg (pollStep cfg s (.resolve (.ok (some m)))).1
      (.resolve (.ok (some m)))).2 = [] := by
  have hstep_new : isNewFor s m →
      pollStep cfg s (.resolve (.ok (some m))) =
        ({ s with
            inFlight := s.inFlight - 1
            lastMessage := m.text
            lastActivityId := activityIdOf m },
         if cfg.hasCallback then [m.text] else []) := by
    intro hn; simp [pollStep, h, hn]
  have hstep_old : ¬ isNewFor s m →
      pollStep cfg s (.resolve (.ok (some m))) =
        ({ s with inFlight := s.inFlight - 1 }, []) := by
    intro hn; simp [pollStep, h, hn]
  by_cases hn : isNewFor s m
  · rw [hstep_new hn]
    refine ⟨?_, fun _ => ⟨rfl, rfl⟩, ?_⟩
    · cases hc : cfg.hasCallback <;> simp [hc, hn]
    · by_cases h2 : s.inFlight - 1 = 0
      · simp [pollStep, h2]
      · simp [pollStep, h2, isNewFor]
  · rw [hstep_old hn]
    refine ⟨?_, fun hcon => absurd hcon hn, ?_⟩
    · simp [hn]
    · by_cases h2 : s.inFlight - 1 = 0
      · simp [pollStep, h2]
      · have hnot : ¬ isNewFor { s with inFlight := s.inFlight - 1 } m := by
          simpa [isNewFor] using hn
        simp [pollStep, h2, hnot]

/-- C2 (witness): the dedup characterization at a concrete state/message. -/
theorem C2_witness :
    sInFlight.inFlight ≠ 0 ∧
    ((pollStep cfgT sInFlight (.resolve (.ok (some msgW)))).2 ≠ [] ↔
      (cfgT.hasCallback = true ∧ isNewFor sInFlight msgW)) :=
  ⟨by decide, (C2_dedup_delivery cfgT sInFlight msgW (by decide)).1⟩

/-- After a stop, as long as no restart happens, a state with no interval,
no in-flight fetch and inactive flag delivers nothing and stays that way. -/
theorem pollRun_inert (cfg : PollConfig) (t : List PollEvent) :
    ∀ s : PollState, s.intervalSet = false → s.inFlight = 0 →
      PollEvent.start ∉ t → (pollRun cfg s t).2 = [] := by
  induction t with
  | nil => intro s _ _ _; rfl
  | cons e es ih =>
    intro s hi hf hs
    rw [List.mem_cons] at hs
    push_neg at hs
    cases e with
    | start => exact absurd rfl hs.1
    | tickFire =>
      simp only [pollRun, pollStep, hi]
      simpa using ih s hi hf hs.2
    | resolve r =>
      simp only [pollRun, pollStep, hf]
      simpa using ih s hi hf hs.2
    | stop =>
      simp only [pollRun, pollStep]
      have hnext := ih { s with intervalSet := false, isActive := false, isPolling := false }
        rfl hf hs.2
      simpa using hnext

/-- C4 (counterexample): stopping does NOT prevent a callback from a fetch
that was in flight when stop was called.  Start polling (which launches the
immediate first fetch), stop, then let that fetch resolve with a fresh
message: the callback still fires. -/
theorem C4_counterexample :
    ¬ (∀ (cfg : PollConfig) (s : PollState) (t : List PollEvent),
        PollEvent.start ∉ t →
        (pollRun cfg (pollStep cfg s .stop).1 t).2 = []) := by
  intro h
  have hrun := h cfgT (pollStep cfgT initPollState .start).1
    [.resolve (.ok (some msgW))] (by decide)
  exact absurd hrun (by decide)

/-- C4 (amended): stopping synchronously clears the interval, and when no
fetch is in flight at the moment of the stop, no callback invocation can
occur afterwards unless polling is restarted. -/
theorem C4_amended_no_delivery_after_stop (cfg : PollConfig) (s : PollState)
    (t : List PollEvent) (hf : s.inFlight = 0) (hs : PollEvent.start ∉ t) :
    (pollStep cfg s .stop).1.intervalSet = false ∧
    (pollRun cfg (pollStep cfg s .stop).1 t).2 = [] := by
  refine ⟨rfl, pollRun_inert cfg t _ rfl ?_ hs⟩
  simpa [pollStep] using hf

/-- C4 (witness): stopping the never-started machine, then a spurious tick,
resolve and second stop, delivers nothing. -/
theorem C4_amended_witness :
    initPollState.inFlight = 0 ∧
    (pollStep cfgT initPollState .stop).1.intervalSet = false ∧
    (pollRun cfgT (pollStep cfgT initPollState .stop).1
      [.tickFire, .resolve (.ok (some msgW)), .stop]).2 = [] :=
  ⟨rfl, C4_amended_no_delivery_after_stop cfgT initPollState
    [.tickFire, .resolve (.ok (some msgW)), .stop] rfl (by decide)⟩

/-- C6: a failing fetch records the error and touches nothing else — the
dedup refs, the interval and the active flags are exactly as before — and
no callback fires; if the interval is still set, the next tick launches a
fresh fetch (the loop retries). -/
theorem C6_failure_keeps_polling (cfg : PollConfig) (s : PollState) (e : String)
    (h : s.inFlight ≠ 0) :
    pollStep cfg s (.resolve (.error e)) =
      ({ s with inFlight := s.inFlight - 1, error := some e }, []) ∧
    (s.intervalSet = true →
      pollStep cfg { s with inFlight := s.inFlight - 1, error := some e } .tickFire =
        ({ s with inFlight := s.inFlight, error := some e }, [])) := by
  constructor
  · simp [pollStep, h]
  · intro hi
    simp only [pollStep, hi, if_true]
    have : s.inFlight - 1 + 1 = s.inFlight := Nat.succ_pred_eq_of_pos (Nat.pos_of_ne_zero h)
    simp [this]

/-- C6 (witness): the failure step at a concrete in-flight state. -/
theorem C6_witness :
    sInFlight.inFlight ≠ 0 ∧
    pollStep cfgT sInFlight (.resolve (.error "network down")) =
      ({ sInFlight with inFlight := 0, error := some "network down" }, []) :=
  ⟨by decide, (C6_failure_keeps_polling cfgT sInFlight "network down" (by decide)).1⟩

/-- C8: `stopPolling` before `startPolling` is a strict no-op (the state is
bitwise unchanged: dedup refs, error, flags and the absent interval), and a
second stop after any stop changes nothing and delivers nothing. -/
theorem C8_stop_noop (cfg : PollConfig) :
    pollStep cfg initPollState .stop = (initPollState, []) ∧
    ∀ s : PollState,
      pollStep cfg (pollStep cfg s .stop).1 .stop = ((pollStep cfg s .stop).1, []) := by
  refine ⟨rfl, fun s => ?_⟩
  cases s
  rfl

/-! ## C5 — HTTP error mapping of `getBotActivities` -/

/-- C5: with non-blank credentials, a 401 response fails with the fixed
unauthorized message (which contains "unauthorized" up to letter case), 403
with the forbidden message, 404 with the conversation-not-found message —
each independent of the response body — and any other non-success status
fails with the generic message derived from the body when one is present,
else `API error: <status>`. -/
theorem C5_error_mapping (cid tok : String) (resp : HttpResponse)
    (hc : cid ≠ "") (ht : tok ≠ "") :
    (resp.status = 401 →
      getBotActivities cid tok resp =
        .error "Unauthorized: Invalid Bearer Token. Please check your token." ∧
      icontains "Unauthorized: Invalid Bearer Token. Please check your token."
        "unauthorized" = true) ∧
    (resp.status = 403 →
      getBotActivities cid tok resp =
        .error "Forbidden: Token may not have access to this conversation." ∧
      icontains "Forbidden: Token may not have access to this conversation."
        "forbidden" = true) ∧
    (resp.status = 404 →
      getBotActivities cid tok resp =
        .error "Conversation not found: Invalid Conversation ID." ∧
      icontains "Conversation not found: Invalid Conversation ID."
        "conversation not found" = true) ∧
    (respOk resp.status = false → resp.status ≠ 401 → resp.status ≠ 403 →
      resp.status ≠ 404 →
      getBotActivities cid tok resp =
        .error (if optTruthy resp.body.errorMessage then resp.body.errorMessage.getD ""
          else if optTruthy resp.body.message then resp.body.message.getD ""
          else "API error: " ++ toString resp.status)) := by
  refine ⟨fun h401 => ⟨?_, by decide⟩, fun h403 => ⟨?_, by decide⟩,
    fun h404 => ⟨?_, by decide⟩, fun hok h1 h2 h3 => ?_⟩
  · have hstat : respOk 401 = false := by decide
    simp [getBotActivities, hc, ht, h401, hstat, directLineErrorMessage]
  · have hstat : respOk 403 = false := by decide
    simp [getBotActivities, hc, ht, h403, hstat, directLineErrorMessage]
  · have hstat : respOk 404 = false := by decide
    simp [getBotActivities, hc, ht, h404, hstat, directLineErrorMessage]
  · simp [getBotActivities, hc, ht, hok, directLineErrorMessage, h1, h2, h3]

/-- C5 (witness): the mapping at a concrete 401 response with empty body. -/
theorem C5_witness :
    getBotActivities "conv1" "tok1" ⟨401, ⟨none, none, none⟩⟩ =
      .error "Unauthorized: Invalid Bearer Token. Please check your token." ∧
    icontains "Unauthorized: Invalid Bearer Token. Please check your token."
      "unauthorized" = true :=
  (C5_error_mapping "conv1" "tok1" ⟨401, ⟨none, none, none⟩⟩
    (by decide) (by decide)).1 rfl

/-! ## C3, C7, C10 — the stabilization detector -/

/-- The claim's streaming scenario: four strictly-growing observations
(each triggered by a mutation/interval check with `immediate = false`, each
re-arming the stabilization timer), then the timer firing, which re-invokes
the check with `immediate = true` on the unchanged final text. -/
def c3Trace : List StabObs :=
  [ { immediate := false, botTyping := false, latestText := some "Hel", now := 0 },
    { immediate := false, botTyping := false, latestText := some "Hello", now := 200 },
    { immediate := false, botTyping := false, latestText := some "Hello wor", now := 400 },
    { immediate := false, botTyping := false, latestText := some "Hello world", now := 600 },
    { immediate := true, botTyping := false, latestText := some "Hello world", now := 1400 } ]

/-- C3: on the strictly-growing sequence "Hel", "Hello", "Hello wor",
"Hello world" followed by the timer firing, exactly one delivery occurs,
with final text "Hello world"; every growth step leaves the timer armed
with the newest text recorded and the counter reset. -/
theorem C3_streaming_single_delivery :
    (stabRun true initStabState c3Trace).2 = ["Hello world"] ∧
    (stabRun true initStabState (c3Trace.take 4)).1 =
      { lastProcessedText := "", lastProcessedTime := 0, timerArmed := true,
        lastSeenText := "Hello world", stabilizationCount := 0 } := by
  constructor
  · decide
  · decide

/-- C9 input: a single bot-authored `message` activity carrying one
attachment and no `text` field (a hero-card-only reply). -/
def actAttachmentOnly : Activity :=
  { id := some "a1", type := "message", text := none, timestamp := some 5,
    fromRole := some "bot", fromId := none, fromName := none,
    attachments := [{ url := some "img.png", title := none, subtitle := none }],
    attachmentLayout := none }

/-- The log containing only `actAttachmentOnly`. -/
def dAttachmentOnly : ActivitiesData := ⟨some [actAttachmentOnly]⟩

/-- C9: `getLatestBotMessage` is NOT total — on a log whose only (hence
most recent) bot message has attachments but no text, the activity passes
the filter (so the claim would require a BotMessage result), yet the
function throws: the per-message debug log at `directLineService.js:197`
reads `activity.text.substring(0, 100)` without the guard every other
access to `text` in the function has. -/
theorem C9_attachment_only_message_throws :
    (dAttachmentOnly.activities.getD []).filter keepsActivity = [actAttachmentOnly] ∧
    getLatestBotMessage dAttachmentOnly = .error substringTypeError := by
  constructor
  · decide
  · rfl

/-- The claim's input "Great choice! <party-popper emoji U+1F389> Let's proceed",
written via `Char.ofNat` to keep the file ASCII-clean. -/
def c7Input : String :=
  "Great choice! " ++ String.mk [Char.ofNat 0x1F389] ++ " Let's proceed"

/-- C7: the delivery-time cleaning maps the claimed input to the claimed
output, and every delivered text is exactly the cleaned current text and
has (UTF-16) length greater than 5. -/
theorem C7_emoji_strip_and_min_length :
    cleanText c7Input = "Great choice! Let's proceed" ∧
    ∀ (hc : Bool) (s : StabState) (o : StabObs) (d : String),
      (stabStep hc s o).2 = some d →
      d = cleanText (o.latestText.getD "") ∧ utf16Len d > 5 := by
  constructor
  · decide
  · intro hc s o d h
    unfold stabStep at h
    by_cases hbt : o.botTyping ∧ ¬o.immediate
    · simp [hbt] at h
    · simp only [if_neg hbt] at h
      cases hlt : o.latestText with
      | none => rw [hlt] at h; exact absurd h (by simp)
      | some currentText =>
        rw [hlt] at h
        by_cases hg : currentText ≠ s.lastSeenText ∧
            utf16Len currentText > utf16Len s.lastSeenText
        · simp [hg] at h
        · simp only [if_neg hg] at h
          by_cases hst : currentText = s.lastSeenText ∧ utf16Len currentText > 5
          · simp only [if_pos hst] at h
            by_cases him : o.immediate ∨ s.stabilizationCount + 1 ≥ minStabilizationCount
            · simp only [if_pos him] at h
              by_cases hnw : (currentText ≠ s.lastProcessedText ∨
                  o.now - s.lastProcessedTime > 5000) ∧ hc = true ∧ currentText ≠ ""
              · simp only [if_pos hnw] at h
                by_cases hcl : cleanText currentText ≠ "" ∧
                    utf16Len (cleanText currentText) > 5
                · simp only [if_pos hcl] at h
                  simp only [Option.some.injEq] at h
                  subst h
                  exact ⟨rfl, hcl.2⟩
                · simp [hcl] at h
              · simp [hnw] at h
            · simp [him] at h
          · simp [hst] at h

/-- Stabilization state that has already seen the C7 input as stable. -/
def c7State : StabState :=
  { lastProcessedText := "", lastProcessedTime := 0, timerArmed := true,
    lastSeenText := c7Input, stabilizationCount := 0 }

/-- Timer-fired observation of the unchanged C7 input. -/
def c7Obs : StabObs :=
  { immediate := true, botTyping := false, latestText := some c7Input, now := 0 }

/-- C7 (witness): the delivery characterization at the concrete emoji input. -/
theorem C7_witness :
    (stabStep true c7State c7Obs).2 = some "Great choice! Let's proceed" ∧
    ("Great choice! Let's proceed" = cleanText (c7Obs.latestText.getD "") ∧
      utf16Len "Great choice! Let's proceed" > 5) :=
  ⟨by decide, (C7_emoji_strip_and_min_length).2 true c7State c7Obs
    "Great choice! Let's proceed" (by decide)⟩

/-- C10: when the observed text differs from the last-seen text but is not
strictly longer (a shorter replacement), the check changes no state field —
`lastSeenText`, the counter, the timer and the last-delivered fields are
untouched — and delivers nothing. -/
theorem C10_non_growth_frame (hc : Bool) (s : StabState) (o : StabObs) (t : String)
    (h1 : o.latestText = some t) (h2 : t ≠ s.lastSeenText)
    (h3 : ¬ utf16Len t > utf16Len s.lastSeenText) :
    stabStep hc s o = (s, none) := by
  unfold stabStep
  by_cases hbt : o.botTyping ∧ ¬o.immediate
  · simp [hbt]
  · simp only [if_neg hbt, h1]
    rw [if_neg (show ¬(t ≠ s.lastSeenText ∧ utf16Len t > utf16Len s.lastSeenText) by tauto)]
    rw [if_neg (show ¬(t = s.lastSeenText ∧ utf16Len t > 5) by tauto)]

/-- State having last seen a long message, for the C10 witness. -/
def c10State : StabState :=
  { lastProcessedText := "previous answer", lastProcessedTime := 0,
    timerArmed := true, lastSeenText := "Hello there friend",
    stabilizationCount := 0 }

/-- Observation of a shorter replacement text, for the C10 witness. -/
def c10Obs : StabObs :=
  { immediate := false, botTyping := false, latestText := some "Hi", now := 900 }

/-- C10 (witness): the frame property at a concrete shorter replacement. -/
theorem C10_witness :
    c10Obs.latestText = some "Hi" ∧ stabStep true c10State c10Obs = (c10State, none) :=
  ⟨rfl, C10_non_growth_frame true c10State c10Obs "Hi" rfl (by decide) (by decide)⟩
